import Mathlib

/-
Verification of the extraction and template-composition engine of rust-skeptic.

The definitions below are shallow embeddings of the functions in
src/skeptic/lib.rs and src/skeptic/emit.rs (the two files contain identical
copies of `compose_template`, `clean_omitted_line` and `create_test_input`).
Rust strings are modelled as Lean `String`/`List Char`; character indices are
`chars().enumerate()` indices exactly as in the source.  A Rust `panic!` is
modelled as `Except.error` carrying the panic message.  Rust's Unicode
`char::is_whitespace` / `char::is_alphanumeric` are modelled by Lean's
ASCII-oriented `Char.isWhitespace` / `Char.isAlphanum`; every template,
info string and identifier handled by the claims is ASCII, where the two
notions agree.
-/

deriving instance DecidableEq for Except

set_option maxRecDepth 10000

/-- Parity helper of `compose_template`: true when a brace-run length is odd. -/
def is_odd (n : Nat) : Bool := !(n % 2 == 0)

/-- The five scanner states of `compose_template` (enum `State` in the source). -/
inductive ScanState where
  | nothin : ScanState
  | openBraceRun : List Nat → ScanState
  | opener : Nat → ScanState
  | closeBraceRun : List Nat → ScanState
  | closeBraceRunWithOpener : Nat → List Nat → ScanState
  deriving DecidableEq

/-- Mutable scan context of `compose_template`: the accumulated brace runs, the
confirmed substitution marker, and the current state. -/
structure ScanAcc where
  openBraceRuns : List (List Nat)
  closeBraceRuns : List (List Nat)
  replacement : Option (Nat × Nat)
  state : ScanState
  deriving DecidableEq

/-- One iteration of the character scan of `compose_template`, mirroring the
source's `match state` block.  `Vec::push` appends on the right, `Vec::pop`
removes the last element, `VecDeque::pop_front` removes the first. -/
def scanStep (acc : ScanAcc) (idx : Nat) (ch : Char) : Except String ScanAcc :=
  match acc.state with
  | ScanState.nothin =>
    if ch = '{' then Except.ok { acc with state := ScanState.openBraceRun [idx] }
    else if ch = '}' then Except.ok { acc with state := ScanState.closeBraceRun [idx] }
    else Except.ok { acc with state := ScanState.nothin }
  | ScanState.openBraceRun openBraces =>
    if ch = '{' then Except.ok { acc with state := ScanState.openBraceRun (openBraces ++ [idx]) }
    else if ch = '}' then
      if is_odd openBraces.length then
        match openBraces.getLast? with
        | none => Except.error ("called Option::unwrap() on a None value")
        | some openIdx =>
          let rest := openBraces.dropLast
          Except.ok { acc with
            openBraceRuns := if rest.isEmpty then acc.openBraceRuns else acc.openBraceRuns ++ [rest],
            state := ScanState.closeBraceRunWithOpener openIdx [idx] }
      else
        Except.ok { acc with openBraceRuns := acc.openBraceRuns ++ [openBraces],
                             state := ScanState.closeBraceRun [idx] }
    else if ch.isWhitespace then
      if is_odd openBraces.length then
        match openBraces.getLast? with
        | none => Except.error ("called Option::unwrap() on a None value")
        | some openIdx =>
          let rest := openBraces.dropLast
          Except.ok { acc with
            openBraceRuns := if rest.isEmpty then acc.openBraceRuns else acc.openBraceRuns ++ [rest],
            state := ScanState.opener openIdx }
      else
        Except.ok { acc with openBraceRuns := acc.openBraceRuns ++ [openBraces],
                             state := ScanState.nothin }
    else
      Except.ok { acc with openBraceRuns := acc.openBraceRuns ++ [openBraces],
                           state := ScanState.nothin }
  | ScanState.opener openIdx =>
    if ch = '{' then Except.error ("internal error: entered unreachable code")
    else if ch = '}' then Except.ok { acc with state := ScanState.closeBraceRunWithOpener openIdx [idx] }
    else if ch.isWhitespace then Except.ok { acc with state := ScanState.opener openIdx }
    else Except.ok { acc with state := ScanState.nothin }
  | ScanState.closeBraceRun closeBraces =>
    if ch = '{' then
      Except.ok { acc with closeBraceRuns := acc.closeBraceRuns ++ [closeBraces],
                           state := ScanState.openBraceRun [idx] }
    else if ch = '}' then
      Except.ok { acc with state := ScanState.closeBraceRun (closeBraces ++ [idx]) }
    else
      Except.ok { acc with closeBraceRuns := acc.closeBraceRuns ++ [closeBraces],
                           state := ScanState.nothin }
  | ScanState.closeBraceRunWithOpener openIdx closeBraces =>
    if ch = '}' then
      Except.ok { acc with state := ScanState.closeBraceRunWithOpener openIdx (closeBraces ++ [idx]) }
    else
      if is_odd closeBraces.length then
        if acc.replacement.isSome then Except.error ("multiple \x7b\x7d in skeptic template")
        else
          match closeBraces with
          | [] => Except.error ("called Option::unwrap() on a None value")
          | closeIdx :: restC =>
            Except.ok { acc with
              replacement := some (openIdx, closeIdx),
              closeBraceRuns := if restC.isEmpty then acc.closeBraceRuns else acc.closeBraceRuns ++ [restC],
              state := if ch = '{' then ScanState.openBraceRun [idx] else ScanState.nothin }
      else
        Except.ok { acc with closeBraceRuns := acc.closeBraceRuns ++ [closeBraces],
                             state := if ch = '{' then ScanState.openBraceRun [idx] else ScanState.nothin }

/-- The `for (idx, ch) in template.chars().enumerate()` loop of
`compose_template`.  Whatever state is live when the characters run out is
simply discarded, exactly as in the source. -/
def scanLoop : List Char → Nat → ScanAcc → Except String ScanAcc
  | [], _, acc => Except.ok acc
  | ch :: rest, idx, acc =>
    Except.bind (scanStep acc idx ch) (fun acc2 => scanLoop rest (idx + 1) acc2)

/-- Post-scan trim of one brace run: an odd-length run drops its last index
(`if is_odd(run.len()) { run.pop(); }`). -/
def pruneRun (run : List Nat) : List Nat := if is_odd run.length then run.dropLast else run

/-- Pairing of the flattened run indices (`while !runs.is_empty()` pop-front
twice); popping from an exhausted deque is the source's `unwrap` panic. -/
def pairUp : List Nat → Except String (List (Nat × Nat))
  | [] => Except.ok []
  | [_] => Except.error ("called Option::unwrap() on a None value")
  | a :: b :: rest => Except.bind (pairUp rest) (fun ps => Except.ok ((a, b) :: ps))

/-- Rust `Debug` rendering of one `(usize, usize)` pair. -/
def fmtPair (p : Nat × Nat) : String := "(" ++ toString p.1 ++ ", " ++ toString p.2 ++ ")"

/-- Rust `Debug` rendering of a `VecDeque<(usize, usize)>`. -/
def fmtPairList (ps : List (Nat × Nat)) : String :=
  "[" ++ String.intercalate (", ") (ps.map fmtPair) ++ "]"

/-- The render loop of `compose_template` (`while idx != template_chars_len`).
`skip` counts characters the source pops without emitting: the marker span
after `rep_start`, and the second character of an escape pair.  Running out of
characters with a pending skip is the source's `unwrap` panic, and the
`assert!(start + 1 == end)` checks are the error cases below. -/
def renderLoop : List Char → Nat → Nat → List (Nat × Nat) → List (Nat × Nat) → Nat → Nat → String → Except String String
  | [], _, skip, _, _, _, _, _ =>
    if skip = 0 then Except.ok ("") else Except.error ("called Option::unwrap() on a None value")
  | ch :: rest, idx, skip, opens, closes, repStart, repEnd, body =>
    if skip = 0 then
      if idx = repStart then
        Except.bind (renderLoop rest (idx + 1) (repEnd - repStart) opens closes repStart repEnd body)
          (fun t => Except.ok (body ++ t))
      else if opens.head?.map Prod.fst = some idx then
        match opens with
        | (s, e) :: opens2 =>
          if e = s + 1 then
            Except.bind (renderLoop rest (idx + 1) 1 opens2 closes repStart repEnd body)
              (fun t => Except.ok ("\x7b" ++ t))
          else Except.error ("assertion failed: open_start + 1 == open_end")
        | [] => Except.error ("assertion failed: open_start + 1 == open_end")
      else if closes.head?.map Prod.fst = some idx then
        match closes with
        | (s, e) :: closes2 =>
          if e = s + 1 then
            Except.bind (renderLoop rest (idx + 1) 1 opens closes2 repStart repEnd body)
              (fun t => Except.ok ("\x7d" ++ t))
          else Except.error ("assertion failed: close_start + 1 == close_end")
        | [] => Except.error ("assertion failed: close_start + 1 == close_end")
      else
        Except.bind (renderLoop rest (idx + 1) 0 opens closes repStart repEnd body)
          (fun t => Except.ok (String.mk [ch] ++ t))
    else
      renderLoop rest (idx + 1) (skip - 1) opens closes repStart repEnd body

/-- `compose_template` from src/skeptic/lib.rs (identically src/skeptic/emit.rs):
scan the template for brace runs, require a confirmed substitution marker,
pair up the surviving run indices, then rebuild the text — prefixed by the
three `// ...` diagnostic lines the source writes into `src` before rendering.
`Except.error` models the source's `panic!`/`unwrap`/`assert!` aborts. -/
def compose_template (template : Option String) (test : String) : Except String String :=
  match template with
  | none => Except.ok test
  | some tpl =>
    Except.bind (scanLoop tpl.data 0 ⟨[], [], none, ScanState.nothin⟩) (fun acc =>
      match acc.replacement with
      | none => Except.error ("no \x7b\x7d found in skeptic template")
      | some (repStart, repEnd) =>
        Except.bind (pairUp ((acc.openBraceRuns.map pruneRun).flatten)) (fun openPairs =>
        Except.bind (pairUp ((acc.closeBraceRuns.map pruneRun).flatten)) (fun closePairs =>
        Except.bind (renderLoop tpl.data 0 0 openPairs closePairs repStart repEnd test) (fun rendered =>
          Except.ok (("// rep_start, rep_end: " ++ toString repStart ++ ", " ++ toString repEnd ++ "\n")
            ++ ("// open_brace_pairs: " ++ fmtPairList openPairs ++ "\n")
            ++ ("// close_brace_pairs: " ++ fmtPairList closePairs ++ "\n")
            ++ rendered)))))

/-- Rust `str::split` with a character predicate: empty tokens at the ends and
between adjacent separators are kept. -/
def split_on (p : Char → Bool) : List Char → List (List Char)
  | [] => [[]]
  | c :: cs =>
    match split_on p cs with
    | [] => [[]]
    | t :: ts => if p c then [] :: t :: ts else (c :: t) :: ts

/-- Separator predicate of `parse_code_block_info`:
`|c: char| !(c == '_' || c == '-' || c.is_alphanumeric())`. -/
def tok_sep (c : Char) : Bool := !(c == '_' || c == '-' || c.isAlphanum)

/-- The annotation flags produced by `parse_code_block_info`. -/
structure CodeBlockInfo where
  is_rust : Bool
  should_panic : Bool
  ignore : Bool
  no_run : Bool
  is_old_template : Bool
  template : Option String
  deriving DecidableEq

/-- One token of the `for token in tokens` loop of `parse_code_block_info`;
the triple carries `(info, seen_rust_tags, seen_other_tags)`. -/
def token_step (st : CodeBlockInfo × Bool × Bool) (tok : List Char) : CodeBlockInfo × Bool × Bool :=
  let info := st.1
  let seenRust := st.2.1
  let seenOther := st.2.2
  if tok = [] then st
  else if tok = ("rust").data then ({ info with is_rust := true }, true, seenOther)
  else if tok = ("should_panic").data then ({ info with should_panic := true }, true, seenOther)
  else if tok = ("ignore").data then ({ info with ignore := true }, true, seenOther)
  else if tok = ("no_run").data then ({ info with no_run := true }, true, seenOther)
  else if tok = ("skeptic-template").data then ({ info with is_old_template := true }, true, seenOther)
  else if List.isPrefixOf (("skt-").data) tok then
    ({ info with template := some (String.mk (tok.drop 4)) }, true, seenOther)
  else (info, seenRust, true)

/-- `parse_code_block_info` from src/skeptic/lib.rs: tokenize the info string,
fold the annotation flags, then apply the final policy line
`info.is_rust &= !seen_other_tags || seen_rust_tags`. -/
def parse_code_block_info (info : String) : CodeBlockInfo :=
  let tokens := split_on tok_sep info.data
  let res := tokens.foldl token_step (⟨false, false, false, false, false, none⟩, false, false)
  { res.1 with is_rust := res.1.is_rust && (!res.2.2 || res.2.1) }

/-- Token test: is this the language token `rust` (the only token that sets
`is_rust` before the final policy line)? -/
def tok_is_rust (t : List Char) : Bool := t == ("rust").data

/-- Token test: does this token set `seen_rust_tags`? -/
def tok_recognized (t : List Char) : Bool :=
  t == ("rust").data || t == ("should_panic").data || t == ("ignore").data
    || t == ("no_run").data || t == ("skeptic-template").data
    || List.isPrefixOf (("skt-").data) t

/-- Token test: does this token set `seen_other_tags`? -/
def tok_other (t : List Char) : Bool := !(t == ([] : List Char)) && !(tok_recognized t)

/-- Rust `u8::to_ascii_lowercase` semantics on a char: shift `A`..`Z` down by
adding 32, leave everything else alone. -/
def to_ascii_lowercase (c : Char) : Char :=
  if 65 ≤ c.toNat ∧ c.toNat ≤ 90 then Char.ofNat (c.toNat + 32) else c

/-- `ch.is_ascii() && ch.is_alphanumeric()`: an ASCII digit or letter. -/
def is_ascii_alphanumeric (c : Char) : Bool :=
  (48 ≤ c.toNat && c.toNat ≤ 57) || (65 ≤ c.toNat && c.toNat ≤ 90) || (97 ≤ c.toNat && c.toNat ≤ 122)

/-- The per-character map of `sanitize_test_name`: keep ASCII alphanumerics,
replace everything else by an underscore. -/
def sanitize_map_char (c : Char) : Char := if is_ascii_alphanumeric c then c else '_'

/-- Rust `Vec<&str>::join(sep)` on character lists. -/
def join_with (sep : Char) : List (List Char) → List Char
  | [] => []
  | [t] => t
  | t :: ts => t ++ sep :: join_with sep ts

/-- The segment pipeline of `sanitize_test_name`: lowercase, map to
alphanumeric-or-underscore, split on underscores, drop empty segments. -/
def sanitize_core (l : List Char) : List (List Char) :=
  (split_on (fun c => c == '_') ((l.map to_ascii_lowercase).map sanitize_map_char)).filter
    (fun t => !t.isEmpty)

/-- `sanitize_test_name` from src/skeptic/lib.rs. -/
def sanitize_test_name (s : String) : String :=
  String.mk (join_with '_' (sanitize_core s.data))

/-- A lowercase ASCII letter or digit — the character class `[a-z0-9]`. -/
def is_lower_alnum (c : Char) : Bool :=
  (48 ≤ c.toNat && c.toNat ≤ 57) || (97 ≤ c.toNat && c.toNat ≤ 122)

/-- Recognizer for the regular expression `^[a-z0-9]+(_[a-z0-9]+)*$`: splitting
on underscores must leave only nonempty all-`[a-z0-9]` segments. -/
def matches_test_name (s : String) : Bool :=
  (split_on (fun c => c == '_') s.data).all (fun t => !t.isEmpty && t.all is_lower_alnum)

/-- The pulldown-cmark events consumed by `extract_tests_from_string`
(header start/end with level, code-block start/end with info string, text);
anything else falls into the ignored `other` case. -/
inductive MdEvent where
  | startHeader : Nat → MdEvent
  | endHeader : Nat → MdEvent
  | startCodeBlock : String → MdEvent
  | endCodeBlock : String → MdEvent
  | text : String → MdEvent
  | other : MdEvent
  deriving DecidableEq

/-- The `Buffer` register of the extractor. -/
inductive Buffer where
  | none : Buffer
  | code : List String → Buffer
  | header : String → Buffer
  deriving DecidableEq

/-- One extracted test unit (struct `Test` in the source). -/
structure Test where
  name : String
  text : List String
  ignore : Bool
  no_run : Bool
  should_panic : Bool
  template : Option String
  deriving DecidableEq

/-- The loop state of `extract_tests_from_string`. -/
structure ExtractAcc where
  tests : List Test
  buffer : Buffer
  sect : Option String
  codeBlockStart : Nat
  oldTemplate : Option String
  deriving DecidableEq

/-- `bytecount::count(&s.as_bytes()[0..offset], b'\n')` for an ASCII document:
newlines in the consumed prefix. -/
def count_newlines (l : List Char) : Nat := l.count '\n'

/-- One event of the extraction loop of `extract_tests_from_string`.  The
pulldown-cmark parser is external to the repository, so the pre-parsed event
stream (each event with the parser offset taken before consuming it) is an
input here, exactly the interface the loop consumes. -/
def extract_step (s : String) (file_stem : String) (acc : ExtractAcc) (ev : Nat × MdEvent) : ExtractAcc :=
  let line_number := count_newlines (s.data.take ev.1)
  match ev.2 with
  | MdEvent.startHeader level =>
    if level < 3 then { acc with buffer := Buffer.header ("") } else acc
  | MdEvent.endHeader level =>
    if level < 3 then
      match acc.buffer with
      | Buffer.header sectText =>
        { acc with buffer := Buffer.none, sect := some (sanitize_test_name sectText) }
      | _ => { acc with buffer := Buffer.none }
    else acc
  | MdEvent.startCodeBlock info =>
    if (parse_code_block_info info).is_rust then { acc with buffer := Buffer.code [] } else acc
  | MdEvent.text t =>
    match acc.buffer with
    | Buffer.code buf =>
      { acc with codeBlockStart := if buf.isEmpty then line_number else acc.codeBlockStart,
                 buffer := Buffer.code (buf ++ [t]) }
    | Buffer.header h => { acc with buffer := Buffer.header (h ++ t) }
    | Buffer.none => acc
  | MdEvent.endCodeBlock info =>
    let cbi := parse_code_block_info info
    match acc.buffer with
    | Buffer.code buf =>
      if cbi.is_old_template then
        { acc with buffer := Buffer.none, oldTemplate := some (String.join buf) }
      else
        let name :=
          match acc.sect with
          | some sec => file_stem ++ "_sect_" ++ sec ++ "_line_" ++ toString acc.codeBlockStart
          | none => file_stem ++ "_line_" ++ toString acc.codeBlockStart
        { acc with buffer := Buffer.none,
                   tests := acc.tests ++ [{ name := name, text := buf, ignore := cbi.ignore,
                                            no_run := cbi.no_run, should_panic := cbi.should_panic,
                                            template := cbi.template }] }
    | _ => { acc with buffer := Buffer.none }
  | MdEvent.other => acc

/-- `extract_tests_from_string` from src/skeptic/lib.rs: a single forward pass
over the event stream, returning the tests in emission order together with the
legacy default template, for a caller-sanitized `file_stem`. -/
def extract_tests_from_string (s : String) (events : List (Nat × MdEvent)) (file_stem : String) :
    List Test × Option String :=
  let final := events.foldl (extract_step s file_stem) ⟨[], Buffer.none, none, 0, none⟩
  (final.tests, final.oldTemplate)

/-- The naming discipline of extracted tests: stem plus optional section plus
the recorded start line. -/
def test_name_shape (stem : String) (t : Test) : Prop :=
  (∃ ln : Nat, t.name = stem ++ "_line_" ++ toString ln)
  ∨ (∃ sec : String, ∃ ln : Nat, t.name = stem ++ "_sect_" ++ sec ++ "_line_" ++ toString ln)

/-- Concrete document for the extraction-ordering check: ten newlines, a code
line, thirty newlines, a second code line — so the two text tokens sit on the
0-based lines 10 and 40. -/
def c9_doc : String :=
  String.mk (List.replicate 10 '\n' ++ 'A' :: (List.replicate 30 '\n' ++ ['B']))

/-- Event stream of `c9_doc`: two fenced rust blocks, no heading. -/
def c9_events : List (Nat × MdEvent) :=
  [(0, MdEvent.startCodeBlock ("rust")), (10, MdEvent.text ("A")), (11, MdEvent.endCodeBlock ("rust")),
   (11, MdEvent.startCodeBlock ("rust")), (41, MdEvent.text ("B")), (42, MdEvent.endCodeBlock ("rust"))]

/-- Rust `str::trim_left` on a character list. -/
def trim_left_chars (l : List Char) : List Char := l.dropWhile Char.isWhitespace

/-- Rust `str::trim_right` on a character list. -/
def trim_right_chars (l : List Char) : List Char :=
  (l.reverse.dropWhile Char.isWhitespace).reverse

/-- `clean_omitted_line` from src/skeptic/lib.rs: drop a rustdoc-style hidden
line marker `# ` after leading whitespace, reduce a lone `#` line to its tail,
pass every other line through unchanged. -/
def clean_omitted_line (line : String) : String :=
  let trimmed := trim_left_chars line.data
  if List.isPrefixOf (['#', ' ']) trimmed then String.mk (trimmed.drop 2)
  else if trim_right_chars trimmed = ['#'] then String.mk (trimmed.drop 1)
  else line

/-- `create_test_input` from src/skeptic/lib.rs: clean each line and
concatenate. -/
def create_test_input (lines : List String) : String :=
  String.join (lines.map clean_omitted_line)

/-- Consecutive indices `i, i+1, ..., i+m-1`, the contents of a brace run that
starts at index `i` and has length `m`. -/
def idx_run (i : Nat) : Nat → List Nat
  | 0 => []
  | m + 1 => i :: idx_run (i + 1) m

/-- The escape pairs carved out of a run starting at `i`:
`(i, i+1), (i+2, i+3), ...`, `k` of them. -/
def consec_pairs (i : Nat) : Nat → List (Nat × Nat)
  | 0 => []
  | k + 1 => (i, i + 1) :: consec_pairs (i + 2) k

/-- Helper: a character that is neither brace leaves the idle scanner
unchanged, so a brace-free template is scanned to its initial context. -/
theorem scanLoop_no_brace (l : List Char) :
    ∀ (i : Nat) (a b : List (List Nat)) (r : Option (Nat × Nat)),
      (∀ c ∈ l, c ≠ '{' ∧ c ≠ '}') →
      scanLoop l i ⟨a, b, r, ScanState.nothin⟩ = Except.ok ⟨a, b, r, ScanState.nothin⟩ := by
  induction l with
  | nil => intro i a b r _; rfl
  | cons c cs ih =>
    intro i a b r h
    have hc := h c (List.mem_cons_self c cs)
    have hrest : ∀ x ∈ cs, x ≠ '{' ∧ x ≠ '}' := fun x hx => h x (List.mem_cons_of_mem c hx)
    have hstep : scanStep ⟨a, b, r, ScanState.nothin⟩ i c = Except.ok ⟨a, b, r, ScanState.nothin⟩ := by
      simp [scanStep, hc.1, hc.2]
    show Except.bind (scanStep ⟨a, b, r, ScanState.nothin⟩ i c)
        (fun acc2 => scanLoop cs (i + 1) acc2) = _
    rw [hstep]
    exact ih (i + 1) a b r hrest

/-- C1: a template with two bare marker pairs is rejected only when the second
pair is confirmed by a further character; when the template ends right at the
second pair's closing brace the scan drops the pending pair, the composition
succeeds on the first marker, and the trailing pair is copied verbatim. -/
theorem c1_multiple_markers :
    (∀ body : String, compose_template (some ("\x7b\x7d and \x7b\x7d ")) body
        = Except.error ("multiple \x7b\x7d in skeptic template"))
    ∧ (∀ body : String, compose_template (some ("\x7b\x7d and \x7b\x7d")) body
        = Except.ok ("// rep_start, rep_end: 0, 1\n// open_brace_pairs: []\n// close_brace_pairs: []\n"
            ++ (body ++ " and \x7b\x7d"))) :=
  ⟨fun _ => rfl, fun _ => rfl⟩

/-- C1 counterexample: the template `"{} and {}"` of the claim does not raise
the multiple-marker error — it composes, splicing the body at the first
marker and emitting the second `{}` literally. -/
theorem c1_counterexample : compose_template (some ("\x7b\x7d and \x7b\x7d")) ("B")
    = Except.ok ("// rep_start, rep_end: 0, 1\n// open_brace_pairs: []\n// close_brace_pairs: []\nB and \x7b\x7d") := rfl

/-- C2 (amended): whenever the character scan of a template completes without
confirming a substitution marker, composition fails with the fatal no-marker
error, for every body; in particular every template with zero brace characters
does.  But not every no-marker template reaches that error: one that leaves
the scanner holding a pending opener and then reads another `'{'` (such as
`"{ {"`) aborts inside the scan itself through the source's `unreachable!()`
branch, with the internal-error panic instead. -/
theorem c2_no_marker_amended :
    (∀ (t body : String) (acc : ScanAcc),
      scanLoop t.data 0 ⟨[], [], none, ScanState.nothin⟩ = Except.ok acc →
      acc.replacement = none →
      compose_template (some t) body = Except.error ("no \x7b\x7d found in skeptic template"))
    ∧ (∀ (t body : String), (∀ c ∈ t.data, c ≠ '{' ∧ c ≠ '}') →
      compose_template (some t) body = Except.error ("no \x7b\x7d found in skeptic template"))
    ∧ (∀ body : String, compose_template (some ("\x7b \x7b")) body
        = Except.error ("internal error: entered unreachable code")) := by
  refine ⟨?_, ?_, fun _ => rfl⟩
  · intro t body acc hscan hrep
    rcases acc with ⟨a, b, r, st⟩
    have hr : r = none := hrep
    subst hr
    show Except.bind (scanLoop t.data 0 ⟨[], [], none, ScanState.nothin⟩) _ = _
    rw [hscan]
    rfl
  · intro t body h
    have hs := scanLoop_no_brace t.data 0 [] [] none h
    show Except.bind (scanLoop t.data 0 ⟨[], [], none, ScanState.nothin⟩) _ = _
    rw [hs]
    rfl

/-- C2 witness: the spec's own example template `"no markers here"`, whose
scan ends markerless in the idle state. -/
theorem c2_witness_amended : compose_template (some ("no markers here")) ("B")
    = Except.error ("no \x7b\x7d found in skeptic template") :=
  c2_no_marker_amended.1 ("no markers here") ("B") ⟨[], [], none, ScanState.nothin⟩ rfl rfl

/-- C2 counterexample: the template `"{ {"` contains no substitution marker,
yet composing it does not raise the no-marker MalformedTemplate error — the
scanner enters the pending-opener state, reads the second `'{'`, and aborts
through the source's `unreachable!()` branch. -/
theorem c2_counterexample : compose_template (some ("\x7b \x7b")) ("B")
    = Except.error ("internal error: entered unreachable code") := rfl

/-- C3 (amended): composing `"{{ {} }}"` with `"X"` yields the three
diagnostic comment lines followed by `"{ X }}"` — the opening doubled braces
become one literal brace and the inner pair is the marker, but the closing
doubled braces sit in a run still open when the template ends, are dropped
from escape pairing, and are copied verbatim. -/
theorem c3_escape_handling : compose_template (some ("\x7b\x7b \x7b\x7d \x7d\x7d")) ("X")
    = Except.ok ("// rep_start, rep_end: 3, 4\n// open_brace_pairs: [(0, 1)]\n// close_brace_pairs: []\n\x7b X \x7d\x7d") := rfl

/-- C3 counterexample: the composition result is not the claimed `"{ X }"`. -/
theorem c3_counterexample :
    compose_template (some ("\x7b\x7b \x7b\x7d \x7d\x7d")) ("X") ≠ Except.ok ("\x7b X \x7d") := by
  decide

/-- C4 (amended): composing `"wrap({}) end"` with `"X"` yields the three
diagnostic comment lines followed by `"wrap(X) end"`. -/
theorem c4_round_trip : compose_template (some ("wrap(\x7b\x7d) end")) ("X")
    = Except.ok ("// rep_start, rep_end: 5, 6\n// open_brace_pairs: []\n// close_brace_pairs: []\nwrap(X) end") := rfl

/-- C4 counterexample: the composition result is not exactly `"wrap(X) end"`. -/
theorem c4_counterexample :
    compose_template (some ("wrap(\x7b\x7d) end")) ("X") ≠ Except.ok ("wrap(X) end") := by
  decide

/-- C5 counterexample: an adjacent `{}` marker at the very end of the template
is never confirmed — `"ab{}"` raises the no-marker error instead of splicing
the body. -/
theorem c5_counterexample : compose_template (some ("ab\x7b\x7d")) ("X")
    = Except.error ("no \x7b\x7d found in skeptic template") := rfl

/-- C6 counterexample: in `"{} x }}} y"` the non-marker run `}}}` of length 3
contributes two literal braces (one escape pair plus its free brace copied
verbatim), not the claimed floor(3/2) = 1. -/
theorem c6_counterexample : compose_template (some ("\x7b\x7d x \x7d\x7d\x7d y")) ("B")
    = Except.ok ("// rep_start, rep_end: 0, 1\n// open_brace_pairs: []\n// close_brace_pairs: [(5, 6)]\nB x \x7d\x7d y") := rfl

/-- Helper: whitespace keeps the scanner waiting in the `opener` state. -/
theorem scanLoop_opener_ws (m : Nat) :
    ∀ (rest : List Char) (i : Nat) (a b : List (List Nat)) (r : Option (Nat × Nat)) (j : Nat),
      scanLoop (List.replicate m ' ' ++ rest) i ⟨a, b, r, ScanState.opener j⟩
        = scanLoop rest (i + m) ⟨a, b, r, ScanState.opener j⟩ := by
  induction m with
  | zero => intro rest i a b r j; rfl
  | succ m ih =>
    intro rest i a b r j
    show Except.bind (scanStep ⟨a, b, r, ScanState.opener j⟩ i ' ')
        (fun acc2 => scanLoop (List.replicate m ' ' ++ rest) (i + 1) acc2) = _
    have hstep : scanStep ⟨a, b, r, ScanState.opener j⟩ i ' '
        = Except.ok ⟨a, b, r, ScanState.opener j⟩ := rfl
    rw [hstep]
    show scanLoop (List.replicate m ' ' ++ rest) (i + 1) ⟨a, b, r, ScanState.opener j⟩ = _
    rw [ih rest (i + 1) a b r j]
    have h1 : i + 1 + m = i + (m + 1) := by omega
    rw [h1]

/-- Helper: a close-brace run is accumulated index by index. -/
theorem scanLoop_close_run (m : Nat) :
    ∀ (rest : List Char) (i : Nat) (a b : List (List Nat)) (r : Option (Nat × Nat)) (l : List Nat),
      scanLoop (List.replicate m '}' ++ rest) i ⟨a, b, r, ScanState.closeBraceRun l⟩
        = scanLoop rest (i + m) ⟨a, b, r, ScanState.closeBraceRun (l ++ idx_run i m)⟩ := by
  induction m with
  | zero => intro rest i a b r l; simp [idx_run]
  | succ m ih =>
    intro rest i a b r l
    show Except.bind (scanStep ⟨a, b, r, ScanState.closeBraceRun l⟩ i '}')
        (fun acc2 => scanLoop (List.replicate m '}' ++ rest) (i + 1) acc2) = _
    have hstep : scanStep ⟨a, b, r, ScanState.closeBraceRun l⟩ i '}'
        = Except.ok ⟨a, b, r, ScanState.closeBraceRun (l ++ [i])⟩ := rfl
    rw [hstep]
    show scanLoop (List.replicate m '}' ++ rest) (i + 1) ⟨a, b, r, ScanState.closeBraceRun (l ++ [i])⟩ = _
    rw [ih rest (i + 1) a b r (l ++ [i])]
    have h1 : i + 1 + m = i + (m + 1) := by omega
    have h2 : l ++ [i] ++ idx_run (i + 1) m = l ++ idx_run i (m + 1) := by
      rw [List.append_assoc]
      rfl
    rw [h1, h2]

/-- Helper: the render loop silently consumes exactly as many characters as the
pending skip count. -/
theorem renderLoop_skip (l : List Char) :
    ∀ (rest : List Char) (i extra : Nat) (opens closes : List (Nat × Nat)) (rs re : Nat) (body : String),
      renderLoop (l ++ rest) i (l.length + extra) opens closes rs re body
        = renderLoop rest (i + l.length) extra opens closes rs re body := by
  induction l with
  | nil => intro rest i extra opens closes rs re body; simp
  | cons c l ih =>
    intro rest i extra opens closes rs re body
    have hne : ¬ (l.length + 1 + extra = 0) := by omega
    show (if l.length + 1 + extra = 0 then _ else
        renderLoop (l ++ rest) (i + 1) (l.length + 1 + extra - 1) opens closes rs re body) = _
    rw [if_neg hne]
    have h1 : l.length + 1 + extra - 1 = l.length + extra := by omega
    rw [h1, ih rest (i + 1) extra opens closes rs re body]
    have h2 : i + 1 + l.length = i + (l.length + 1) := by omega
    rw [h2]
    rfl

/-- Helper: the length of a consecutive index run. -/
theorem idx_run_length (m : Nat) : ∀ i : Nat, (idx_run i m).length = m := by
  induction m with
  | zero => intro i; rfl
  | succ m ih => intro i; show (idx_run (i + 1) m).length + 1 = m + 1; rw [ih (i + 1)]

/-- Helper: dropping the last index of a consecutive run shortens it by one. -/
theorem idx_run_dropLast (m : Nat) : ∀ i : Nat, (idx_run i (m + 1)).dropLast = idx_run i m := by
  induction m with
  | zero => intro i; rfl
  | succ m ih =>
    intro i
    show i :: (idx_run (i + 1) (m + 1)).dropLast = i :: idx_run (i + 1) m
    rw [ih (i + 1)]

/-- Helper: pairing an even-length consecutive run yields the consecutive
escape pairs. -/
theorem pairUp_idx_run (k : Nat) : ∀ i : Nat, pairUp (idx_run i (2 * k)) = Except.ok (consec_pairs i k) := by
  induction k with
  | zero => intro i; rfl
  | succ k ih =>
    intro i
    have h : 2 * (k + 1) = 2 * k + 2 := by omega
    rw [h]
    show Except.bind (pairUp (idx_run (i + 2) (2 * k)))
        (fun ps => Except.ok ((i, i + 1) :: ps)) = _
    rw [ih (i + 2)]
    rfl

/-- Helper: the first escape pair of a consecutive family starts at the run's
first index. -/
theorem consec_pairs_head_fst (i k j : Nat)
    (h : (consec_pairs i k).head?.map Prod.fst = some j) : j = i := by
  cases k with
  | zero => simp [consec_pairs] at h
  | succ k =>
    simp [consec_pairs] at h
    omega

/-- Helper: a character that is neither the marker opener nor the start of a
pending escape pair is copied through the render loop verbatim. -/
theorem renderLoop_copy (ch : Char) (rest : List Char) (i : Nat)
    (opens closes : List (Nat × Nat)) (rs re : Nat) (body : String)
    (h1 : ¬ (i = rs)) (h2 : ¬ (opens.head?.map Prod.fst = some i))
    (h3 : ¬ (closes.head?.map Prod.fst = some i)) :
    renderLoop (ch :: rest) i 0 opens closes rs re body
      = Except.bind (renderLoop rest (i + 1) 0 opens closes rs re body)
          (fun t => Except.ok (String.mk [ch] ++ t)) := by
  simp only [renderLoop]
  rw [if_pos trivial, if_neg h1, if_neg h2, if_neg h3]

/-- Helper: a run of pending consecutive escape pairs renders one literal brace
per pair, as long as the substitution marker lies strictly before the run. -/
theorem renderLoop_close_pairs (k : Nat) :
    ∀ (rest : List Char) (i : Nat) (closes2 : List (Nat × Nat)) (rs re : Nat) (body : String),
      rs < i →
      renderLoop (List.replicate (2 * k) '}' ++ rest) i 0 [] (consec_pairs i k ++ closes2) rs re body
        = Except.bind (renderLoop rest (i + 2 * k) 0 [] closes2 rs re body)
            (fun t => Except.ok (String.mk (List.replicate k '}') ++ t)) := by
  induction k with
  | zero =>
    intro rest i closes2 rs re body _
    simp only [Nat.mul_zero, List.replicate_zero, List.nil_append, Nat.add_zero, consec_pairs]
    cases hX : renderLoop rest i 0 [] ([] ++ closes2) rs re body with
    | error e =>
      rw [List.nil_append] at hX
      rw [hX]
      rfl
    | ok t =>
      rw [List.nil_append] at hX
      rw [hX]
      rfl
  | succ k ih =>
    intro rest i closes2 rs re body h
    have hmul : 2 * (k + 1) = 2 * k + 2 := by omega
    rw [hmul]
    have hne : ¬ (i = rs) := by omega
    show (if (0 : Nat) = 0 then
        if i = rs then _
        else if ([] : List (Nat × Nat)).head?.map Prod.fst = some i then _
        else if ((i, i + 1) :: (consec_pairs (i + 2) k ++ closes2)).head?.map Prod.fst = some i then
          if i + 1 = i + 1 then
            Except.bind (renderLoop ('}' :: (List.replicate (2 * k) '}' ++ rest)) (i + 1) 1 []
                (consec_pairs (i + 2) k ++ closes2) rs re body)
              (fun t => Except.ok ("\x7d" ++ t))
          else _
        else _
      else _) = _
    rw [if_pos rfl, if_neg hne]
    rw [if_neg (show ¬ (([] : List (Nat × Nat)).head?.map Prod.fst = some i) by simp)]
    rw [if_pos (show ((i, i + 1) :: (consec_pairs (i + 2) k ++ closes2)).head?.map Prod.fst = some i by simp)]
    rw [if_pos rfl]
    show Except.bind (renderLoop (List.replicate (2 * k) '}' ++ rest) (i + 2) 0 []
        (consec_pairs (i + 2) k ++ closes2) rs re body)
      (fun t => Except.ok ("\x7d" ++ t)) = _
    rw [ih rest (i + 2) closes2 rs re body (by omega)]
    have hidx : i + 2 + 2 * k = i + (2 * k + 2) := by omega
    rw [hidx]
    cases hX : renderLoop rest (i + (2 * k + 2)) 0 [] closes2 rs re body with
    | error e => rfl
    | ok t => rfl

/-- C5 (amended): a candidate opener followed by any run of whitespace
(including none) and a candidate closer is recognized as the marker and
replaced by the body — provided the closer is confirmed by a further
character; a marker pair that ends the template (see the counterexample) is
never confirmed.  Here, for every whitespace-run length `n` and every body,
`"a{" ++ n spaces ++ "}b"` composes to the diagnostic header followed by
`"a" ++ body ++ "b"`. -/
theorem c5_marker_recognition (n : Nat) (body : String) :
    compose_template (some (String.mk ('a' :: '{' :: (List.replicate n ' ' ++ ['}', 'b'])))) body
      = Except.ok (("// rep_start, rep_end: 1, " ++ toString (n + 2) ++ "\n")
          ++ "// open_brace_pairs: []\n" ++ "// close_brace_pairs: []\n"
          ++ ("a" ++ (body ++ "b"))) := by
  have hscan : scanLoop ('a' :: '{' :: (List.replicate n ' ' ++ ['}', 'b'])) 0
      ⟨[], [], none, ScanState.nothin⟩
      = Except.ok ⟨[], [], some (1, n + 2), ScanState.nothin⟩ := by
    cases n with
    | zero => rfl
    | succ m =>
      have h0 : scanLoop ('a' :: '{' :: (List.replicate (m + 1) ' ' ++ ['}', 'b'])) 0
          ⟨[], [], none, ScanState.nothin⟩
          = scanLoop (List.replicate m ' ' ++ ['}', 'b']) 3 ⟨[], [], none, ScanState.opener 1⟩ := rfl
      rw [h0, scanLoop_opener_ws m ['}', 'b'] 3 [] [] none 1]
      have h1 : 3 + m = m + 3 := by omega
      rw [h1]
      rfl
  have hrender : renderLoop ('a' :: '{' :: (List.replicate n ' ' ++ ['}', 'b'])) 0 0 [] [] 1 (n + 2) body
      = Except.ok (String.mk ['a'] ++ (body ++ ("b"))) := by
    show Except.bind (Except.bind
        (renderLoop (List.replicate n ' ' ++ ['}', 'b']) 2 (n + 2 - 1) [] [] 1 (n + 2) body)
        (fun t => Except.ok (body ++ t)))
      (fun t => Except.ok (String.mk ['a'] ++ t)) = _
    have hsplit : List.replicate n ' ' ++ (['}', 'b'] : List Char)
        = (List.replicate n ' ' ++ ['}']) ++ ['b'] := by simp
    rw [hsplit]
    have hskip : n + 2 - 1 = (List.replicate n ' ' ++ ['}']).length + 0 := by simp
    rw [hskip]
    rw [renderLoop_skip (List.replicate n ' ' ++ ['}']) ['b'] 2 0 [] [] 1 (n + 2) body]
    have hidx : 2 + (List.replicate n ' ' ++ ['}']).length = n + 3 := by
      simp
      omega
    rw [hidx]
    rfl
  show Except.bind (scanLoop ('a' :: '{' :: (List.replicate n ' ' ++ ['}', 'b'])) 0
      ⟨[], [], none, ScanState.nothin⟩) _ = _
  rw [hscan]
  show Except.bind (renderLoop ('a' :: '{' :: (List.replicate n ' ' ++ ['}', 'b'])) 0 0 [] [] 1 (n + 2) body) _ = _
  rw [hrender]
  rfl

/-- C6 (amended): a non-marker odd-length brace run of length `2k+1` that is
closed off by a following character contributes `k` literal braces from its
escape pairs plus its one free brace copied verbatim (`k+1` braces in all, not
`floor(length/2)`); and a brace run still open at the template's end is
dropped from pairing entirely, all of its braces being copied verbatim. -/
theorem c6_escape_accounting :
    (∀ (k : Nat) (body : String),
      compose_template (some (String.mk ('{' :: '}' :: ' ' :: 'x' :: ' ' ::
          (List.replicate (2 * k + 1) '}' ++ [' ', 'y'])))) body
        = Except.ok ("// rep_start, rep_end: 0, 1\n// open_brace_pairs: []\n// close_brace_pairs: "
            ++ fmtPairList (consec_pairs 5 k) ++ "\n"
            ++ (body ++ (" x " ++ (String.mk (List.replicate k '}') ++ "\x7d y")))))
    ∧ compose_template (some ("\x7b\x7d \x7d\x7d\x7d")) ("B")
        = Except.ok ("// rep_start, rep_end: 0, 1\n// open_brace_pairs: []\n// close_brace_pairs: []\nB \x7d\x7d\x7d") := by
  constructor
  · intro k body
    have hscan : scanLoop ('{' :: '}' :: ' ' :: 'x' :: ' ' ::
        (List.replicate (2 * k + 1) '}' ++ [' ', 'y'])) 0 ⟨[], [], none, ScanState.nothin⟩
        = Except.ok ⟨[], [idx_run 5 (2 * k + 1)], some (0, 1), ScanState.nothin⟩ := by
      have h0 : scanLoop ('{' :: '}' :: ' ' :: 'x' :: ' ' ::
          (List.replicate (2 * k + 1) '}' ++ [' ', 'y'])) 0 ⟨[], [], none, ScanState.nothin⟩
          = scanLoop (List.replicate (2 * k) '}' ++ [' ', 'y']) 6
              ⟨[], [], some (0, 1), ScanState.closeBraceRun [5]⟩ := rfl
      rw [h0, scanLoop_close_run (2 * k) [' ', 'y'] 6 [] [] (some (0, 1)) [5]]
      rfl
    have hm : (2 * k + 1) % 2 = 1 := by omega
    have hprune : pruneRun (idx_run 5 (2 * k + 1)) = idx_run 5 (2 * k) := by
      simp [pruneRun, is_odd, idx_run_length, hm, idx_run_dropLast]
    have hpair : pairUp ((List.map pruneRun [idx_run 5 (2 * k + 1)]).flatten)
        = Except.ok (consec_pairs 5 k) := by
      simp [hprune]
      exact pairUp_idx_run k 5
    have hno2 : ¬ ((consec_pairs 5 k).head?.map Prod.fst = some 2) := fun h => by
      have := consec_pairs_head_fst 5 k 2 h
      omega
    have hno3 : ¬ ((consec_pairs 5 k).head?.map Prod.fst = some 3) := fun h => by
      have := consec_pairs_head_fst 5 k 3 h
      omega
    have hno4 : ¬ ((consec_pairs 5 k).head?.map Prod.fst = some 4) := fun h => by
      have := consec_pairs_head_fst 5 k 4 h
      omega
    have hrender : renderLoop ('{' :: '}' :: ' ' :: 'x' :: ' ' ::
        (List.replicate (2 * k + 1) '}' ++ [' ', 'y'])) 0 0 [] (consec_pairs 5 k) 0 1 body
        = Except.ok (body ++ (" x " ++ (String.mk (List.replicate k '}') ++ "\x7d y"))) := by
      show Except.bind (renderLoop (' ' :: 'x' :: ' ' ::
          (List.replicate (2 * k + 1) '}' ++ [' ', 'y'])) 2 0 [] (consec_pairs 5 k) 0 1 body)
        (fun t => Except.ok (body ++ t)) = _
      rw [renderLoop_copy ' ' _ 2 [] (consec_pairs 5 k) 0 1 body (by omega) (by simp) hno2]
      rw [renderLoop_copy 'x' _ 3 [] (consec_pairs 5 k) 0 1 body (by omega) (by simp) hno3]
      rw [renderLoop_copy ' ' _ 4 [] (consec_pairs 5 k) 0 1 body (by omega) (by simp) hno4]
      have hsplit : List.replicate (2 * k + 1) '}' ++ ([' ', 'y'] : List Char)
          = List.replicate (2 * k) '}' ++ ['}', ' ', 'y'] := by
        rw [List.replicate_succ']
        simp
      rw [hsplit]
      rw [show consec_pairs 5 k = consec_pairs 5 k ++ [] from (List.append_nil _).symm]
      rw [renderLoop_close_pairs k ['}', ' ', 'y'] 5 [] 0 1 body (by omega)]
      rw [show 5 + 2 * k = 2 * k + 5 from by omega]
      rfl
    show Except.bind (scanLoop ('{' :: '}' :: ' ' :: 'x' :: ' ' ::
        (List.replicate (2 * k + 1) '}' ++ [' ', 'y'])) 0 ⟨[], [], none, ScanState.nothin⟩) _ = _
    rw [hscan]
    show Except.bind (pairUp ((List.map pruneRun [idx_run 5 (2 * k + 1)]).flatten)) _ = _
    rw [hpair]
    show Except.bind (renderLoop ('{' :: '}' :: ' ' :: 'x' :: ' ' ::
        (List.replicate (2 * k + 1) '}' ++ [' ', 'y'])) 0 0 [] (consec_pairs 5 k) 0 1 body) _ = _
    rw [hrender]
    rfl
  · rfl

/-- Helper: the effect of one annotation token on the `is_rust` flag and the
`seen_rust_tags`/`seen_other_tags` accumulators. -/
theorem token_step_proj (info : CodeBlockInfo) (sr so : Bool) (tok : List Char) :
    (token_step (info, sr, so) tok).1.is_rust = (info.is_rust || tok_is_rust tok)
    ∧ (token_step (info, sr, so) tok).2.1 = (sr || tok_recognized tok)
    ∧ (token_step (info, sr, so) tok).2.2 = (so || tok_other tok) := by
  by_cases h0 : tok = []
  · subst h0
    refine ⟨?_, ?_, ?_⟩ <;> simp +decide [token_step, tok_is_rust, tok_recognized, tok_other]
  by_cases h1 : tok = ("rust").data
  · subst h1
    refine ⟨?_, ?_, ?_⟩ <;> simp +decide [token_step, tok_is_rust, tok_recognized, tok_other]
  by_cases h2 : tok = ("should_panic").data
  · subst h2
    refine ⟨?_, ?_, ?_⟩ <;> simp +decide [token_step, tok_is_rust, tok_recognized, tok_other]
  by_cases h3 : tok = ("ignore").data
  · subst h3
    refine ⟨?_, ?_, ?_⟩ <;> simp +decide [token_step, tok_is_rust, tok_recognized, tok_other]
  by_cases h4 : tok = ("no_run").data
  · subst h4
    refine ⟨?_, ?_, ?_⟩ <;> simp +decide [token_step, tok_is_rust, tok_recognized, tok_other]
  by_cases h5 : tok = ("skeptic-template").data
  · subst h5
    refine ⟨?_, ?_, ?_⟩ <;> simp +decide [token_step, tok_is_rust, tok_recognized, tok_other]
  by_cases h6 : List.isPrefixOf (("skt-").data) tok
  · refine ⟨?_, ?_, ?_⟩ <;>
      simp [token_step, tok_is_rust, tok_recognized, tok_other, h0, h1, h2, h3, h4, h5, h6,
        beq_iff_eq]
  · refine ⟨?_, ?_, ?_⟩ <;>
      simp [token_step, tok_is_rust, tok_recognized, tok_other, h0, h1, h2, h3, h4, h5, h6,
        beq_iff_eq]

/-- Helper: folding the token stream computes exactly the three disjunction
summaries of the token list. -/
theorem token_fold_spec (toks : List (List Char)) :
    ∀ (info : CodeBlockInfo) (sr so : Bool),
      (toks.foldl token_step (info, sr, so)).1.is_rust = (info.is_rust || toks.any tok_is_rust)
      ∧ (toks.foldl token_step (info, sr, so)).2.1 = (sr || toks.any tok_recognized)
      ∧ (toks.foldl token_step (info, sr, so)).2.2 = (so || toks.any tok_other) := by
  induction toks with
  | nil => intro info sr so; simp
  | cons tok toks ih =>
    intro info sr so
    have hstep := token_step_proj info sr so tok
    rcases hst : token_step (info, sr, so) tok with ⟨info2, sr2, so2⟩
    rw [hst] at hstep
    have hA : info2.is_rust = (info.is_rust || tok_is_rust tok) := hstep.1
    have hB : sr2 = (sr || tok_recognized tok) := hstep.2.1
    have hC : so2 = (so || tok_other tok) := hstep.2.2
    rw [List.foldl_cons, hst]
    have h3 := ih info2 sr2 so2
    refine ⟨?_, ?_, ?_⟩
    · rw [h3.1, hA, List.any_cons]
      simp [Bool.or_assoc]
    · rw [h3.2.1, hB, List.any_cons]
      simp [Bool.or_assoc]
    · rw [h3.2.2, hC, List.any_cons]
      simp [Bool.or_assoc]

/-- C7: a fenced block is classified as a genuine code sample iff the `rust`
language token occurred and (no unrecognized token occurred or some recognized
token occurred); in particular `"rust,ignore"` is a sample with ignore set,
`"rust,python"` is a sample, and `"python"` alone is not. -/
theorem c7_info_string_policy :
    (∀ info : String,
      (parse_code_block_info info).is_rust
        = ((split_on tok_sep info.data).any tok_is_rust
            && (!((split_on tok_sep info.data).any tok_other)
                || (split_on tok_sep info.data).any tok_recognized)))
    ∧ (parse_code_block_info ("rust,ignore")).is_rust = true
    ∧ (parse_code_block_info ("rust,ignore")).ignore = true
    ∧ (parse_code_block_info ("rust,python")).is_rust = true
    ∧ (parse_code_block_info ("python")).is_rust = false := by
  refine ⟨?_, rfl, rfl, rfl, rfl⟩
  intro info
  have h := token_fold_spec (split_on tok_sep info.data)
    ⟨false, false, false, false, false, none⟩ false false
  have hgoal : (parse_code_block_info info).is_rust
      = (((split_on tok_sep info.data).foldl token_step
            (⟨false, false, false, false, false, none⟩, false, false)).1.is_rust
          && (!((split_on tok_sep info.data).foldl token_step
            (⟨false, false, false, false, false, none⟩, false, false)).2.2
            || ((split_on tok_sep info.data).foldl token_step
            (⟨false, false, false, false, false, none⟩, false, false)).2.1)) := rfl
  rw [hgoal, h.1, h.2.1, h.2.2]
  simp

/-- Helper: lowercasing never produces an ASCII uppercase letter. -/
theorem to_ascii_lowercase_not_upper (c : Char) :
    ¬ (65 ≤ (to_ascii_lowercase c).toNat ∧ (to_ascii_lowercase c).toNat ≤ 90) := by
  unfold to_ascii_lowercase
  by_cases h : 65 ≤ c.toNat ∧ c.toNat ≤ 90
  · rw [if_pos h]
    have hv : (Char.ofNat (c.toNat + 32)).toNat = c.toNat + 32 := by
      have hval : (c.toNat + 32).isValidChar := Or.inl (by omega)
      unfold Char.ofNat
      rw [dif_pos hval]
      rfl
    intro hcon
    rw [hv] at hcon
    omega
  · rw [if_neg h]
    exact h

/-- Helper: unpack the `[a-z0-9]` recognizer into its numeric ranges. -/
theorem lower_alnum_ranges (c : Char) (h : is_lower_alnum c = true) :
    (48 ≤ c.toNat ∧ c.toNat ≤ 57) ∨ (97 ≤ c.toNat ∧ c.toNat ≤ 122) := by
  simpa [is_lower_alnum, Bool.or_eq_true, Bool.and_eq_true, decide_eq_true_eq] using h

/-- Helper: the per-character sanitizer map yields an underscore or a lowercase
alphanumeric character. -/
theorem step_shape (c : Char) :
    sanitize_map_char (to_ascii_lowercase c) = '_'
    ∨ is_lower_alnum (sanitize_map_char (to_ascii_lowercase c)) = true := by
  have hnu := to_ascii_lowercase_not_upper c
  unfold sanitize_map_char
  by_cases h : is_ascii_alphanumeric (to_ascii_lowercase c) = true
  · rw [if_pos h]
    right
    simp only [is_ascii_alphanumeric, Bool.or_eq_true, Bool.and_eq_true, decide_eq_true_eq] at h
    simp only [is_lower_alnum, Bool.or_eq_true, Bool.and_eq_true, decide_eq_true_eq]
    omega
  · rw [if_neg h]
    left
    rfl

/-- Helper: the per-character sanitizer map fixes `[a-z0-9]` characters. -/
theorem step_id_of_lower (c : Char) (h : is_lower_alnum c = true) :
    sanitize_map_char (to_ascii_lowercase c) = c := by
  have hr := lower_alnum_ranges c h
  have h1 : to_ascii_lowercase c = c := by
    unfold to_ascii_lowercase
    rw [if_neg (by omega)]
  rw [h1]
  unfold sanitize_map_char
  rw [if_pos (show is_ascii_alphanumeric c = true by
    simp only [is_ascii_alphanumeric, Bool.or_eq_true, Bool.and_eq_true, decide_eq_true_eq]
    omega)]

/-- Helper: a `[a-z0-9]` character is not an underscore. -/
theorem lower_alnum_beq_underscore (c : Char) (h : is_lower_alnum c = true) :
    (c == '_') = false := by
  have hr := lower_alnum_ranges c h
  have hne : ¬ (c = '_') := by
    intro he
    rw [he] at h
    exact absurd h (by decide)
  exact beq_eq_false_iff_ne.mpr hne

/-- Helper: splitting always yields at least one token. -/
theorem split_on_cons_eq (p : Char → Bool) (l : List Char) :
    ∃ t ts, split_on p l = t :: ts := by
  induction l with
  | nil => exact ⟨[], [], rfl⟩
  | cons c cs ih =>
    obtain ⟨t, ts, h⟩ := ih
    show ∃ u us, (match split_on p cs with
      | [] => [[]]
      | t :: ts => if p c then [] :: t :: ts else (c :: t) :: ts) = u :: us
    rw [h]
    cases hp : p c
    · exact ⟨c :: t, ts, by simp⟩
    · exact ⟨[], t :: ts, by simp⟩

/-- Helper: every character of every token came from the input and is not a
separator. -/
theorem split_on_chars (p : Char → Bool) (l : List Char) :
    ∀ t ∈ split_on p l, ∀ c ∈ t, c ∈ l ∧ p c = false := by
  induction l with
  | nil =>
    intro t ht c hc
    have : t = [] := by simpa [split_on] using ht
    subst this
    simp at hc
  | cons a as ih =>
    intro t ht c hc
    obtain ⟨u, us, hu⟩ := split_on_cons_eq p as
    have hsplit : split_on p (a :: as)
        = if p a then [] :: u :: us else (a :: u) :: us := by
      show (match split_on p as with
        | [] => [[]]
        | t :: ts => if p a then [] :: t :: ts else (a :: t) :: ts) = _
      rw [hu]
    rw [hsplit] at ht
    cases hp : p a with
    | true =>
      rw [hp, if_pos rfl] at ht
      rcases List.mem_cons.mp ht with h1 | h2
      · subst h1; simp at hc
      · have hmem : t ∈ split_on p as := by rw [hu]; exact h2
        have := ih t hmem c hc
        exact ⟨List.mem_cons_of_mem a this.1, this.2⟩
    | false =>
      rw [hp, if_neg (by simp)] at ht
      rcases List.mem_cons.mp ht with h1 | h2
      · subst h1
        rcases List.mem_cons.mp hc with hc1 | hc2
        · subst hc1; exact ⟨List.mem_cons_self _ _, hp⟩
        · have hmem : u ∈ split_on p as := by rw [hu]; exact List.mem_cons_self u us
          have := ih u hmem c hc2
          exact ⟨List.mem_cons_of_mem a this.1, this.2⟩
      · have hmem : t ∈ split_on p as := by rw [hu]; exact List.mem_cons_of_mem u h2
        have := ih t hmem c hc
        exact ⟨List.mem_cons_of_mem a this.1, this.2⟩

/-- Helper: splitting walks through a separator-free prefix unchanged. -/
theorem split_on_append (p : Char → Bool) (t : List Char) :
    ∀ (l r : List Char) (rs : List (List Char)),
      split_on p l = r :: rs → (∀ c ∈ t, p c = false) →
      split_on p (t ++ l) = (t ++ r) :: rs := by
  induction t with
  | nil => intro l r rs h _; simpa using h
  | cons a t ih =>
    intro l r rs h hall
    have ha : p a = false := hall a (List.mem_cons_self a t)
    have h2 := ih l r rs h (fun c hc => hall c (List.mem_cons_of_mem a hc))
    show (match split_on p (t ++ l) with
      | [] => [[]]
      | u :: us => if p a then [] :: u :: us else (a :: u) :: us) = ((a :: t) ++ r) :: rs
    rw [h2]
    show (if p a = true then [] :: (t ++ r) :: rs else (a :: (t ++ r)) :: rs) = ((a :: t) ++ r) :: rs
    rw [if_neg (by simp [ha])]
    rfl

/-- Helper: splitting at a leading separator emits an empty token. -/
theorem split_on_sep (p : Char → Bool) (a : Char) (l : List Char) (hp : p a = true) :
    split_on p (a :: l) = [] :: split_on p l := by
  obtain ⟨t, ts, h⟩ := split_on_cons_eq p l
  show (match split_on p l with
    | [] => [[]]
    | u :: us => if p a then [] :: u :: us else (a :: u) :: us) = [] :: split_on p l
  rw [h]
  show (if p a = true then [] :: t :: ts else (a :: t) :: ts) = [] :: t :: ts
  rw [if_pos hp]

/-- Helper: splitting on underscores inverts joining with underscores, for
nonempty segment lists whose segments avoid underscores. -/
theorem split_on_join (segs : List (List Char)) :
    segs ≠ [] → (∀ t ∈ segs, ∀ c ∈ t, ((c == '_') : Bool) = false) →
    split_on (fun c => c == '_') (join_with '_' segs) = segs := by
  induction segs with
  | nil => intro h _; exact absurd rfl h
  | cons t segs ih =>
    intro _ hall
    cases segs with
    | nil =>
      have h0 : split_on (fun c => c == '_') ([] : List Char) = [] :: [] := rfl
      have := split_on_append (fun c => c == '_') t [] [] [] h0
        (fun c hc => hall t (List.mem_cons_self t _) c hc)
      show split_on (fun c => c == '_') t = [t]
      simpa using this
    | cons u segs2 =>
      have htail : split_on (fun c => c == '_') (join_with '_' (u :: segs2)) = u :: segs2 :=
        ih (by simp) (fun s hs c hc => hall s (List.mem_cons_of_mem t hs) c hc)
      have hsep : split_on (fun c => c == '_') ('_' :: join_with '_' (u :: segs2))
          = [] :: (u :: segs2) := by
        rw [split_on_sep (fun c => c == '_') '_' _ (by decide), htail]
      have hjoin : join_with '_' (t :: u :: segs2) = t ++ '_' :: join_with '_' (u :: segs2) := rfl
      rw [hjoin, split_on_append (fun c => c == '_') t _ [] (u :: segs2) hsep
        (fun c hc => hall t (List.mem_cons_self t _) c hc)]
      simp

/-- Helper: a character of a joined segment list is the separator or belongs to
some segment. -/
theorem join_with_chars (sep : Char) (segs : List (List Char)) :
    ∀ c ∈ join_with sep segs, c = sep ∨ ∃ t ∈ segs, c ∈ t := by
  induction segs with
  | nil => intro c hc; simp [join_with] at hc
  | cons t segs ih =>
    cases segs with
    | nil =>
      intro c hc
      right
      exact ⟨t, List.mem_cons_self _ _, hc⟩
    | cons u segs2 =>
      intro c hc
      have hj : join_with sep (t :: u :: segs2) = t ++ sep :: join_with sep (u :: segs2) := rfl
      rw [hj] at hc
      rcases List.mem_append.mp hc with h1 | h2
      · right; exact ⟨t, List.mem_cons_self _ _, h1⟩
      · rcases List.mem_cons.mp h2 with h3 | h4
        · left; exact h3
        · rcases ih c h4 with h5 | ⟨s, hs, hcs⟩
          · left; exact h5
          · right; exact ⟨s, List.mem_cons_of_mem t hs, hcs⟩

/-- Helper: mapping a function that fixes every member is the identity. -/
theorem map_id_of_mem {f : Char → Char} (l : List Char) (h : ∀ c ∈ l, f c = c) :
    l.map f = l := by
  induction l with
  | nil => rfl
  | cons a l ih =>
    rw [List.map_cons, h a (List.mem_cons_self a l), ih (fun c hc => h c (List.mem_cons_of_mem a hc))]

/-- Helper: every segment produced by the sanitizer pipeline is nonempty and
consists of `[a-z0-9]` characters. -/
theorem sanitize_core_spec (l : List Char) :
    ∀ t ∈ sanitize_core l, (!t.isEmpty) = true ∧ ∀ c ∈ t, is_lower_alnum c = true := by
  intro t ht
  unfold sanitize_core at ht
  have hfil := List.mem_filter.mp ht
  refine ⟨hfil.2, ?_⟩
  intro c hc
  have hchars := split_on_chars (fun c => c == '_')
    ((l.map to_ascii_lowercase).map sanitize_map_char) t hfil.1 c hc
  obtain ⟨a, ha, hac⟩ := List.mem_map.mp hchars.1
  obtain ⟨b, _, hba⟩ := List.mem_map.mp ha
  rcases step_shape b with h1 | h2
  · rw [hba, hac] at h1
    rw [h1] at hchars
    exact absurd hchars.2 (by decide)
  · rw [hba, hac] at h2
    exact h2

/-- C8: `sanitize_test_name` is idempotent, and its output is empty or matches
the regular expression `^[a-z0-9]+(_[a-z0-9]+)*$`. -/
theorem c8_sanitize_idempotent_shape (x : String) :
    sanitize_test_name (sanitize_test_name x) = sanitize_test_name x
    ∧ (sanitize_test_name x = ("") ∨ matches_test_name (sanitize_test_name x) = true) := by
  have hgood := sanitize_core_spec x.data
  cases hcase : sanitize_core x.data with
  | nil =>
    have hx : sanitize_test_name x = ("") := by
      show String.mk (join_with '_' (sanitize_core x.data)) = ("")
      rw [hcase]
      rfl
    rw [hx]
    exact ⟨rfl, Or.inl rfl⟩
  | cons t ts =>
    rw [hcase] at hgood
    have hx : sanitize_test_name x = String.mk (join_with '_' (t :: ts)) := by
      show String.mk (join_with '_' (sanitize_core x.data)) = _
      rw [hcase]
    have hchars : ∀ c ∈ join_with '_' (t :: ts), c = '_' ∨ is_lower_alnum c = true := by
      intro c hc
      rcases join_with_chars '_' (t :: ts) c hc with h1 | ⟨u, hu, hcu⟩
      · exact Or.inl h1
      · exact Or.inr ((hgood u hu).2 c hcu)
    have hmap1 : (join_with '_' (t :: ts)).map to_ascii_lowercase = join_with '_' (t :: ts) := by
      apply map_id_of_mem
      intro c hc
      rcases hchars c hc with h1 | h2
      · rw [h1]; rfl
      · have hr := lower_alnum_ranges c h2
        unfold to_ascii_lowercase
        rw [if_neg (by omega)]
    have hmap2 : (join_with '_' (t :: ts)).map sanitize_map_char = join_with '_' (t :: ts) := by
      apply map_id_of_mem
      intro c hc
      rcases hchars c hc with h1 | h2
      · rw [h1]; rfl
      · have hr := lower_alnum_ranges c h2
        unfold sanitize_map_char
        rw [if_pos (show is_ascii_alphanumeric c = true by
          simp only [is_ascii_alphanumeric, Bool.or_eq_true, Bool.and_eq_true, decide_eq_true_eq]
          omega)]
    have hne : ∀ u ∈ (t :: ts), ∀ c ∈ u, ((c == '_') : Bool) = false := by
      intro u hu c hc
      exact lower_alnum_beq_underscore c ((hgood u hu).2 c hc)
    have hsplit2 : split_on (fun c => c == '_') (join_with '_' (t :: ts)) = t :: ts :=
      split_on_join (t :: ts) (by simp) hne
    have hfil2 : (t :: ts).filter (fun u => !u.isEmpty) = t :: ts :=
      List.filter_eq_self.mpr (fun u hu => (hgood u hu).1)
    have hcore2 : sanitize_core (join_with '_' (t :: ts)) = t :: ts := by
      unfold sanitize_core
      rw [hmap1, hmap2, hsplit2, hfil2]
    constructor
    · rw [hx]
      show String.mk (join_with '_' (sanitize_core (String.mk (join_with '_' (t :: ts))).data)) = _
      rw [show (String.mk (join_with '_' (t :: ts))).data = join_with '_' (t :: ts) from rfl,
        hcore2]
    · right
      rw [hx]
      show ((split_on (fun c => c == '_') (String.mk (join_with '_' (t :: ts))).data).all
        (fun u => !u.isEmpty && u.all is_lower_alnum)) = true
      rw [show (String.mk (join_with '_' (t :: ts))).data = join_with '_' (t :: ts) from rfl,
        hsplit2]
      simp only [List.all_eq_true, Bool.and_eq_true]
      intro u hu
      exact ⟨(hgood u hu).1, (hgood u hu).2⟩

/-- Helper: one extraction event preserves the naming discipline of all
accumulated tests. -/
theorem extract_step_shape (stem s : String) (acc : ExtractAcc) (ev : Nat × MdEvent)
    (h : ∀ t ∈ acc.tests, test_name_shape stem t) :
    ∀ t ∈ (extract_step s stem acc ev).tests, test_name_shape stem t := by
  intro t ht
  obtain ⟨off, e⟩ := ev
  cases e <;> simp only [extract_step] at ht <;> repeat' split at ht
  all_goals try exact h t ht
  all_goals
    rcases List.mem_append.mp ht with h1 | h2
  all_goals try exact h t h1
  all_goals rw [List.mem_singleton] at h2
  all_goals subst h2
  all_goals first
    | exact Or.inl ⟨acc.codeBlockStart, rfl⟩
    | exact Or.inr ⟨_, acc.codeBlockStart, rfl⟩

/-- Helper: the whole extraction pass preserves the naming discipline. -/
theorem extract_fold_shape (stem s : String) (events : List (Nat × MdEvent)) :
    ∀ acc : ExtractAcc, (∀ t ∈ acc.tests, test_name_shape stem t) →
      ∀ t ∈ (events.foldl (extract_step s stem) acc).tests, test_name_shape stem t := by
  induction events with
  | nil => intro acc h; exact h
  | cons ev events ih =>
    intro acc h
    rw [List.foldl_cons]
    exact ih (extract_step s stem acc ev) (extract_step_shape stem s acc ev h)

/-- C9: every extracted test is named by the sanitized file stem, an optional
`_sect_` qualifier, and `_line_` plus the 0-based line of the block's first
text token; a document with two fenced rust blocks on lines 10 and 40 under no
heading yields exactly the names `doc_line_10` and `doc_line_40`, in order. -/
theorem c9_extraction_order :
    (∀ (raw s : String) (events : List (Nat × MdEvent)) (t : Test),
      t ∈ (extract_tests_from_string s events (sanitize_test_name raw)).1 →
      test_name_shape (sanitize_test_name raw) t)
    ∧ (extract_tests_from_string c9_doc c9_events (sanitize_test_name ("doc"))).1.map Test.name
        = [("doc_line_10"), ("doc_line_40")] := by
  constructor
  · intro raw s events t ht
    exact extract_fold_shape (sanitize_test_name raw) s events ⟨[], Buffer.none, none, 0, none⟩
      (by intro u hu; exact absurd hu (List.not_mem_nil u)) t ht
  · rfl

/-- C9 witness: the first test extracted from the two-block document satisfies
the naming discipline. -/
theorem c9_witness :
    test_name_shape (sanitize_test_name ("doc"))
      ⟨("doc_line_10"), [("A")], false, false, false, none⟩ :=
  c9_extraction_order.1 ("doc") c9_doc c9_events
    ⟨("doc_line_10"), [("A")], false, false, false, none⟩ (by decide)

/-- C10: before composition every line is preprocessed: a line whose content
after leading whitespace starts with `"# "` is replaced by the text after that
prefix, a line that is a lone `"#"` after trimming becomes the text after the
`"#"`, every other line passes through unchanged — so the spliced text is not
always the block text verbatim. -/
theorem c10_input_cleaning :
    (∀ line : String,
      ((List.isPrefixOf (['#', ' ']) (trim_left_chars line.data)) = true →
        clean_omitted_line line = String.mk ((trim_left_chars line.data).drop 2))
      ∧ ((List.isPrefixOf (['#', ' ']) (trim_left_chars line.data)) = false →
        trim_right_chars (trim_left_chars line.data) = ['#'] →
        clean_omitted_line line = String.mk ((trim_left_chars line.data).drop 1))
      ∧ ((List.isPrefixOf (['#', ' ']) (trim_left_chars line.data)) = false →
        trim_right_chars (trim_left_chars line.data) ≠ ['#'] →
        clean_omitted_line line = line))
    ∧ create_test_input [("  # use std;\n"), ("fn main() \x7b\x7d\n")]
        = ("use std;\nfn main() \x7b\x7d\n")
    ∧ create_test_input [("  # use std;\n")] ≠ ("  # use std;\n") := by
  refine ⟨?_, rfl, by decide⟩
  intro line
  refine ⟨?_, ?_, ?_⟩
  · intro h1
    show (if List.isPrefixOf (['#', ' ']) (trim_left_chars line.data) then
        String.mk ((trim_left_chars line.data).drop 2)
      else if trim_right_chars (trim_left_chars line.data) = ['#'] then
        String.mk ((trim_left_chars line.data).drop 1)
      else line) = _
    rw [if_pos h1]
  · intro h1 h2
    show (if List.isPrefixOf (['#', ' ']) (trim_left_chars line.data) then
        String.mk ((trim_left_chars line.data).drop 2)
      else if trim_right_chars (trim_left_chars line.data) = ['#'] then
        String.mk ((trim_left_chars line.data).drop 1)
      else line) = _
    rw [if_neg (by simp [h1]), if_pos h2]
  · intro h1 h2
    show (if List.isPrefixOf (['#', ' ']) (trim_left_chars line.data) then
        String.mk ((trim_left_chars line.data).drop 2)
      else if trim_right_chars (trim_left_chars line.data) = ['#'] then
        String.mk ((trim_left_chars line.data).drop 1)
      else line) = _
    rw [if_neg (by simp [h1]), if_neg h2]

/-- C10 witness: a hidden-line marker is stripped before composition. -/
theorem c10_witness : clean_omitted_line ("  # use std;\n") = ("use std;\n") :=
  (c10_input_cleaning.1 ("  # use std;\n")).1 (by decide)
